import Mathlib

/-!
# Admission webhook handlers (cmd/admission-webhook/handlers.go)

A shallow embedding of `validateHandlerWrapper`, `validate` and
`performValidation`.  The handlers talk to four collaborators that live
outside the file: the response sink (`http.ResponseWriter`), the request body
reader, the AdmissionReview deserializer and the JSON codec.  Their calls are
recorded, in program order, in a list of `Op`s returned next to the Go result;
their outcomes are parameters (`Env`, `ResponseWriter`, `Request.Body`).
-/

namespace AdmissionWebhook

/-- Go `[]byte`. -/
abbrev Bytes := List UInt8

/-! ## Go errors -/

/-- A Go `error` value: a message, and the error it wraps when it was built
with the `%w` verb. -/
inductive Error where
  | plain (msg : String)
  | wrap (msg : String) (inner : Error)
deriving DecidableEq, Repr

/-- The method `Error()` of an error: its message. -/
def Error.message : Error → String
  | .plain msg => msg
  | .wrap msg _ => msg

/-- The function `errors.Unwrap`: the wrapped error, if any. -/
def Error.Unwrap : Error → Option Error
  | .plain _ => none
  | .wrap _ inner => some inner

/-- The call `fmt.Errorf(format, args...)` with `%s` and `%v` verbs only; the
argument is the formatted message.  Nothing is wrapped. -/
def Errorf (msg : String) : Error := .plain msg

/-- The call `fmt.Errorf("<lead>%w", err)`: the message is the lead text
followed by the message of `err`, and `err` is wrapped. -/
def ErrorfW (lead : String) (err : Error) : Error := .wrap (lead ++ err.message) err

/-! ## Constants of net/http and of the package -/

/-- The constant `http.MethodPost`. -/
def MethodPost : String := "POST"
/-- The constant `http.StatusOK`. -/
def StatusOK : Nat := 200
/-- The constant `http.StatusMethodNotAllowed`. -/
def StatusMethodNotAllowed : Nat := 405
/-- The constant `http.StatusBadRequest`. -/
def StatusBadRequest : Nat := 400
/-- The constant `http.StatusInternalServerError`. -/
def StatusInternalServerError : Nat := 500

/-- Modelled from the spec: the package constant `httpHeaderContentType` is
declared outside handlers.go; the spec names the header by its role, the
content type of the request. -/
def httpHeaderContentType : String := "Content-Type"

/-- Modelled from the spec: the package constant `contentTypeJSON` is declared
outside handlers.go; the spec gives the designated structured-data media type
as `application/json`. -/
def contentTypeJSON : String := "application/json"

/-! ## Data model (k8s.io/api/admission/v1, fields the handlers touch) -/

/-- The type `metav1.GroupVersionResource`. -/
structure GroupVersionResource where
  Group : String
  Version : String
  Resource : String
deriving DecidableEq, Repr

/-- The type `runtime.RawExtension`: the uninterpreted bytes of the object. -/
structure RawExtension where
  Raw : Bytes
deriving DecidableEq, Repr

/-- The type `v1.AdmissionRequest`, with the fields the handlers read. -/
structure AdmissionRequest where
  UID : String
  Resource : GroupVersionResource
  Object : RawExtension
deriving DecidableEq, Repr

/-- The type `v1.AdmissionResponse`, with the fields the handlers set. -/
structure AdmissionResponse where
  UID : String
  Allowed : Bool
deriving DecidableEq, Repr

/-- The type `v1.AdmissionReview`; both members are pointers, nil is `none`. -/
structure AdmissionReview where
  Request : Option AdmissionRequest
  Response : Option AdmissionResponse
deriving DecidableEq, Repr

/-! ## The HTTP request, the response sink and the codecs -/

/-- The type `http.Header`: keys with their values. -/
abbrev Header := List (String × List String)

/-- The method `Header.Get`: the first value stored under the key, or the empty
string when there is none.  (Go canonicalises the key first; the only key the
handlers ask for, `Content-Type`, is already canonical.) -/
def Header.Get (h : Header) (key : String) : String :=
  match h.lookup key with
  | some (v :: _) => v
  | _ => ""

/-- The type `http.Request`, with the members the handlers read.  `Body` is the
outcome of `ioutil.ReadAll(r.Body)`: the bytes, or the reader's error. -/
structure Request where
  Method : String
  Header : Header
  Body : Except Error Bytes

/-- The interface `http.ResponseWriter` as the handlers use it.  `WriteHeader`
returns nothing; `Write` returns a byte count the handlers discard and an
error, whose value for given bytes is the behaviour of the sink. -/
structure ResponseWriter where
  Write : Bytes → Option Error

/-- What handlers.go takes from the rest of the program: the expected resource
`khcheckCRDResource`, the text the `%s` verb prints for a resource (fixed by the
declaration of the type, in apimachinery), the AdmissionReview `deserializer`,
and encoding/json (`json.Unmarshal` into a `khcheck.KuberhealthyCheck`, which
returns only an error, and `json.Marshal` of an AdmissionReview).  `Marshal`
keeps the error result of its Go signature, which the code tests; encoding/json
itself does not fail on an envelope that holds a string and a boolean. -/
structure Env where
  khcheckCRDResource : GroupVersionResource
  Sprint : GroupVersionResource → String
  Decode : Bytes → Except Error AdmissionReview
  Unmarshal : Bytes → Option Error
  Marshal : AdmissionReview → Except Error Bytes

/-- One call made by the handlers to a collaborator. -/
inductive Op where
  | log (msg : String)
  | writeHeader (code : Nat)
  | write (b : Bytes)
  | readAll
  | decode (body : Bytes)
  | unmarshal (raw : Bytes)
  | marshal (v : AdmissionReview)
deriving DecidableEq, Repr

/-- The outcome of `performValidation`: the Go result pair and the calls made,
in program order. -/
structure PVResult where
  bytes : Option Bytes
  err : Option Error
  ops : List Op

/-- The outcome of `validate`: the returned error and the calls made. -/
structure VResult where
  err : Option Error
  ops : List Op

/-! ## The handlers -/

/-- The function `performValidation` (handlers.go lines 57-124). -/
def performValidation (env : Env) (_w : ResponseWriter) (r : Request) : PVResult :=
  let t0 : List Op := [Op.log "Performing validation."]
  -- Only handle POST requests with a body and json content type.
  if r.Method ≠ MethodPost then
    ⟨none,
     some (Errorf ("invalid method " ++ r.Method ++ ", only " ++ MethodPost
       ++ " requests are allowed")),
     t0 ++ [Op.writeHeader StatusMethodNotAllowed]⟩
  -- Only handle json/application requests.
  else if r.Header.Get httpHeaderContentType ≠ contentTypeJSON then
    ⟨none,
     some (Errorf ("unsupported content type " ++ r.Header.Get httpHeaderContentType
       ++ ", only " ++ contentTypeJSON ++ " is supported")),
     t0 ++ [Op.writeHeader StatusBadRequest]⟩
  else
    -- Read the request.
    match r.Body with
    | .error err =>
      ⟨none,
       some (Errorf ("could not read admission request body: " ++ err.message)),
       t0 ++ [Op.readAll, Op.writeHeader StatusBadRequest]⟩
    | .ok body =>
      -- Parse the admission review request.
      match env.Decode body with
      | .error err =>
        ⟨none,
         some (ErrorfW "could not decode admission request: " err),
         t0 ++ [Op.readAll, Op.decode body, Op.writeHeader StatusInternalServerError]⟩
      | .ok admissionReviewRequest =>
        match admissionReviewRequest.Request with
        | none =>
          ⟨none,
           some (Errorf "malformed admission request -- request is nil"),
           t0 ++ [Op.readAll, Op.decode body, Op.writeHeader StatusBadRequest]⟩
        | some request =>
          -- Construct the admission review response.
          let admissionReviewResponse : AdmissionReview :=
            ⟨none, some ⟨request.UID, false⟩⟩
          -- Fail the request if it is not a KHCheckCRD.
          if request.Resource ≠ env.khcheckCRDResource then
            ⟨none,
             some (Errorf ("expected resource to be " ++ env.Sprint env.khcheckCRDResource)),
             t0 ++ [Op.readAll, Op.decode body, Op.writeHeader StatusBadRequest]⟩
          else
            -- Parse the KHCheck object.
            let rawKHCheck := request.Object.Raw
            match env.Unmarshal rawKHCheck with
            | some err =>
              ⟨none,
               some (ErrorfW "could not decode khcheck: " err),
               t0 ++ [Op.readAll, Op.decode body, Op.unmarshal rawKHCheck,
                      Op.writeHeader StatusBadRequest]⟩
            | none =>
              -- Admit the check if unmarshalling is ok.
              let admitted : AdmissionReview :=
                ⟨admissionReviewResponse.Request,
                 admissionReviewResponse.Response.map (fun resp => ⟨resp.UID, true⟩)⟩
              -- Return the admission review with a response as JSON.
              match env.Marshal admitted with
              | .error err =>
                ⟨none,
                 some (Errorf ("marshaling response: " ++ err.message)),
                 t0 ++ [Op.readAll, Op.decode body, Op.unmarshal rawKHCheck,
                        Op.marshal admitted]⟩
              | .ok bytes =>
                ⟨some bytes, none,
                 t0 ++ [Op.readAll, Op.decode body, Op.unmarshal rawKHCheck,
                        Op.marshal admitted, Op.log "Completed validation."]⟩

/-- The function `validate` (handlers.go lines 36-54). -/
def validate (env : Env) (w : ResponseWriter) (r : Request) : VResult :=
  let t0 : List Op := [Op.log "Handling validation webhook request."]
  let pv := performValidation env w r
  match pv.err with
  | some err =>
    ⟨some (ErrorfW "failed to perform admission validation: " err), t0 ++ pv.ops⟩
  | none =>
    let b := pv.bytes.getD []
    match w.Write b with
    | some err =>
      ⟨some (ErrorfW "failed to write byte slice to response: " err),
       t0 ++ pv.ops ++ [Op.write b, Op.writeHeader StatusInternalServerError]⟩
    | none => ⟨none, t0 ++ pv.ops ++ [Op.write b]⟩

/-- The handler built by `validateHandlerWrapper` (lines 26-33): it runs
`validate` and drops the error (the wrapped error it formats is assigned to the
blank identifier), so all that remains is the calls made. -/
def validateHandlerWrapper (env : Env) (w : ResponseWriter) (r : Request) : List Op :=
  (validate env w r).ops

/-! ## Observations on a list of calls -/

/-- The status codes passed to `WriteHeader`, in call order. -/
def headerCodes : List Op → List Nat
  | [] => []
  | Op.writeHeader c :: t => c :: headerCodes t
  | _ :: t => headerCodes t

/-- The byte slices passed to `Write`, in call order. -/
def bodyWrites : List Op → List Bytes
  | [] => []
  | Op.write b :: t => b :: bodyWrites t
  | _ :: t => bodyWrites t

/-- The response body: everything handed to `Write`, concatenated. -/
def responseBody (t : List Op) : Bytes := (bodyWrites t).flatten

/-- The status the response carries, by the contract of `http.ResponseWriter`:
the first call on the sink fixes it.  `WriteHeader` sends the headers with its
code; a `Write` that no `WriteHeader` precedes sends them with `StatusOK`
first; the headers go out once, so a `WriteHeader` after either is dropped.
When the handler calls neither, the server answers `StatusOK`. -/
def reportedStatus : List Op → Nat
  | [] => StatusOK
  | Op.writeHeader code :: _ => code
  | Op.write _ :: _ => StatusOK
  | _ :: t => reportedStatus t

/-- The calls to collaborators other than the logger and the response sink:
reading the body, decoding the envelope, decoding the payload, encoding the
response. -/
def codecCalls : List Op → List Op
  | [] => []
  | Op.log _ :: t => codecCalls t
  | Op.writeHeader _ :: t => codecCalls t
  | Op.write _ :: t => codecCalls t
  | op :: t => op :: codecCalls t

/-- Whether the call is a `Write` on the response sink. -/
def isWrite : Op → Bool
  | Op.write _ => true
  | _ => false

/-- Whether the call is `json.Marshal` of an envelope whose verdict is allowed. -/
def isAllowedMarshal : Op → Bool
  | Op.marshal v => (v.Response.map (fun resp => resp.Allowed)).getD false
  | _ => false

/-! ## The precondition list of the specification

The specification numbers the preconditions and fixes their order.  This
section follows its words, to be compared with `performValidation`. -/

/-- The preconditions of the specification, section 4.1, one constructor per
check (precondition 4 has two halves: the envelope decodes, the request is
present). -/
inductive Check where
  | method
  | contentType
  | bodyRead
  | envelopeDecode
  | requestPresent
  | resourceKind
  | payloadDecode
deriving DecidableEq, Repr

/-- The fixed order in which the specification checks the preconditions. -/
def checkOrder : List Check :=
  [Check.method, Check.contentType, Check.bodyRead, Check.envelopeDecode,
   Check.requestPresent, Check.resourceKind, Check.payloadDecode]

/-- The position of a check in the fixed order. -/
def Check.rank : Check → Nat
  | .method => 0
  | .contentType => 1
  | .bodyRead => 2
  | .envelopeDecode => 3
  | .requestPresent => 4
  | .resourceKind => 5
  | .payloadDecode => 6

/-- The status the specification attaches to the violation of each check:
method-not-allowed, bad-request, bad-request, internal-error, and bad-request
for the last three. -/
def Check.status : Check → Nat
  | .method => 405
  | .contentType => 400
  | .bodyRead => 400
  | .envelopeDecode => 500
  | .requestPresent => 400
  | .resourceKind => 400
  | .payloadDecode => 400

/-- The envelope the request carries, when its body can be read and decoded. -/
def envelopeOf (env : Env) (r : Request) : Option AdmissionReview :=
  match r.Body with
  | .ok body =>
    match env.Decode body with
    | .ok review => some review
    | .error _ => none
  | .error _ => none

/-- Whether the request violates a precondition, each taken by itself, as the
specification words it.  A check on data that is not there (the resource of an
envelope that does not decode, say) counts as not violated. -/
def violates (env : Env) (r : Request) : Check → Bool
  | .method => decide (r.Method ≠ MethodPost)
  | .contentType => decide (r.Header.Get httpHeaderContentType ≠ contentTypeJSON)
  | .bodyRead =>
    match r.Body with
    | .ok _ => false
    | .error _ => true
  | .envelopeDecode =>
    match r.Body with
    | .ok body =>
      match env.Decode body with
      | .ok _ => false
      | .error _ => true
    | .error _ => false
  | .requestPresent =>
    match envelopeOf env r with
    | some review => review.Request.isNone
    | none => false
  | .resourceKind =>
    match envelopeOf env r with
    | some review =>
      match review.Request with
      | some request => decide (request.Resource ≠ env.khcheckCRDResource)
      | none => false
    | none => false
  | .payloadDecode =>
    match envelopeOf env r with
    | some review =>
      match review.Request with
      | some request => (env.Unmarshal request.Object.Raw).isSome
      | none => false
    | none => false

/-- The earliest violated precondition in the fixed order, if any. -/
def earliestViolation (env : Env) (r : Request) : Option Check :=
  checkOrder.find? (violates env r)

/-- The check a collaborator call belongs to: reading the body, decoding the
envelope, decoding the payload.  The other calls belong to no check. -/
def Op.check : Op → Option Check
  | Op.readAll => some Check.bodyRead
  | Op.decode _ => some Check.envelopeDecode
  | Op.unmarshal _ => some Check.payloadDecode
  | _ => none

/-! ## Concrete collaborators and requests

A small codec, two sinks and a few requests on which the handlers can be run. -/

/-- The resource the sample configuration expects. -/
def khchecks : GroupVersionResource := ⟨"comcast.github.io", "v1", "khchecks"⟩

/-- A sample deserializer over one-byte bodies: body 1 is a review of a khcheck
with payload 1, body 2 a review of a deployment, body 3 a review of a khcheck
with payload 0, body 4 an envelope without request, body 5 a review of a
khcheck with UID xyz-9 and payload 1; any other body does not decode. -/
def sampleDecode (body : Bytes) : Except Error AdmissionReview :=
  if body = [1] then .ok ⟨some ⟨"abc-123", khchecks, ⟨[1]⟩⟩, none⟩
  else if body = [2] then .ok ⟨some ⟨"abc-123", ⟨"apps", "v1", "deployments"⟩, ⟨[0]⟩⟩, none⟩
  else if body = [3] then .ok ⟨some ⟨"abc-123", khchecks, ⟨[0]⟩⟩, none⟩
  else if body = [4] then .ok ⟨none, none⟩
  else if body = [5] then .ok ⟨some ⟨"xyz-9", khchecks, ⟨[1]⟩⟩, none⟩
  else .error (Errorf "couldn't get version/kind; json parse error")

/-- A sample payload decoder: payload 1 is a KuberhealthyCheck, nothing else is. -/
def sampleUnmarshal (raw : Bytes) : Option Error :=
  if raw = [1] then none else some (Errorf "json: cannot unmarshal")

/-- A sample encoder: one byte for the verdict, then the length of the UID. -/
def sampleMarshal (v : AdmissionReview) : Except Error Bytes :=
  match v.Response with
  | some resp => .ok [if resp.Allowed then 1 else 0, resp.UID.length.toUInt8]
  | none => .ok []

/-- A sample rendering of a resource: group, version and resource, by name. -/
def sampleSprint (gvr : GroupVersionResource) : String :=
  gvr.Group ++ "/" ++ gvr.Version ++ ", Resource=" ++ gvr.Resource

/-- The sample configuration. -/
def sampleEnv : Env :=
  ⟨khchecks, sampleSprint, sampleDecode, sampleUnmarshal, sampleMarshal⟩

/-- A sink that accepts every write. -/
def okWriter : ResponseWriter := ⟨fun _ => none⟩

/-- A sink whose every write fails. -/
def brokenWriter : ResponseWriter := ⟨fun _ => some (Errorf "write: broken pipe")⟩

/-- A POST request with the JSON content type and the given body. -/
def postJSON (body : Bytes) : Request :=
  ⟨"POST", [("Content-Type", ["application/json"])], .ok body⟩

/-- A GET request with a plain-text content type. -/
def getRequest : Request := ⟨"GET", [("Content-Type", ["text/plain"])], .ok [1]⟩

/-- A POST request without a Content-Type header. -/
def postNoContentType : Request := ⟨"POST", [], .ok [1]⟩

/-- A POST request whose content type carries a charset parameter. -/
def postCharset : Request :=
  ⟨"POST", [("Content-Type", ["application/json; charset=utf-8"])], .ok [1]⟩

/-- A POST request with the JSON content type whose body cannot be read. -/
def postUnreadable : Request :=
  ⟨"POST", [("Content-Type", ["application/json"])], .error (Errorf "unexpected EOF")⟩

/-! ## Branch equations of `performValidation` -/

theorem pv_method (env : Env) (w : ResponseWriter) (r : Request)
    (hm : r.Method ≠ MethodPost) :
    performValidation env w r =
      ⟨none,
       some (Errorf ("invalid method " ++ r.Method ++ ", only " ++ MethodPost
         ++ " requests are allowed")),
       [Op.log "Performing validation.", Op.writeHeader StatusMethodNotAllowed]⟩ := by
  simp [performValidation, hm]

theorem pv_contentType (env : Env) (w : ResponseWriter) (r : Request)
    (hm : r.Method = MethodPost)
    (hc : r.Header.Get httpHeaderContentType ≠ contentTypeJSON) :
    performValidation env w r =
      ⟨none,
       some (Errorf ("unsupported content type " ++ r.Header.Get httpHeaderContentType
         ++ ", only " ++ contentTypeJSON ++ " is supported")),
       [Op.log "Performing validation.", Op.writeHeader StatusBadRequest]⟩ := by
  simp [performValidation, hm, hc]

theorem pv_bodyRead (env : Env) (w : ResponseWriter) (r : Request) (err : Error)
    (hm : r.Method = MethodPost)
    (hc : r.Header.Get httpHeaderContentType = contentTypeJSON)
    (hb : r.Body = .error err) :
    performValidation env w r =
      ⟨none,
       some (Errorf ("could not read admission request body: " ++ err.message)),
       [Op.log "Performing validation.", Op.readAll, Op.writeHeader StatusBadRequest]⟩ := by
  simp [performValidation, hm, hc, hb]

theorem pv_decode (env : Env) (w : ResponseWriter) (r : Request) (body : Bytes)
    (err : Error)
    (hm : r.Method = MethodPost)
    (hc : r.Header.Get httpHeaderContentType = contentTypeJSON)
    (hb : r.Body = .ok body) (hd : env.Decode body = .error err) :
    performValidation env w r =
      ⟨none,
       some (ErrorfW "could not decode admission request: " err),
       [Op.log "Performing validation.", Op.readAll, Op.decode body,
        Op.writeHeader StatusInternalServerError]⟩ := by
  simp [performValidation, hm, hc, hb, hd]

theorem pv_noRequest (env : Env) (w : ResponseWriter) (r : Request) (body : Bytes)
    (review : AdmissionReview)
    (hm : r.Method = MethodPost)
    (hc : r.Header.Get httpHeaderContentType = contentTypeJSON)
    (hb : r.Body = .ok body) (hd : env.Decode body = .ok review)
    (hr : review.Request = none) :
    performValidation env w r =
      ⟨none,
       some (Errorf "malformed admission request -- request is nil"),
       [Op.log "Performing validation.", Op.readAll, Op.decode body,
        Op.writeHeader StatusBadRequest]⟩ := by
  simp [performValidation, hm, hc, hb, hd, hr]

theorem pv_resource (env : Env) (w : ResponseWriter) (r : Request) (body : Bytes)
    (review : AdmissionReview) (request : AdmissionRequest)
    (hm : r.Method = MethodPost)
    (hc : r.Header.Get httpHeaderContentType = contentTypeJSON)
    (hb : r.Body = .ok body) (hd : env.Decode body = .ok review)
    (hr : review.Request = some request)
    (hk : request.Resource ≠ env.khcheckCRDResource) :
    performValidation env w r =
      ⟨none,
       some (Errorf ("expected resource to be " ++ env.Sprint env.khcheckCRDResource)),
       [Op.log "Performing validation.", Op.readAll, Op.decode body,
        Op.writeHeader StatusBadRequest]⟩ := by
  simp [performValidation, hm, hc, hb, hd, hr, hk]

theorem pv_payload (env : Env) (w : ResponseWriter) (r : Request) (body : Bytes)
    (review : AdmissionReview) (request : AdmissionRequest) (err : Error)
    (hm : r.Method = MethodPost)
    (hc : r.Header.Get httpHeaderContentType = contentTypeJSON)
    (hb : r.Body = .ok body) (hd : env.Decode body = .ok review)
    (hr : review.Request = some request)
    (hk : request.Resource = env.khcheckCRDResource)
    (hp : env.Unmarshal request.Object.Raw = some err) :
    performValidation env w r =
      ⟨none,
       some (ErrorfW "could not decode khcheck: " err),
       [Op.log "Performing validation.", Op.readAll, Op.decode body,
        Op.unmarshal request.Object.Raw, Op.writeHeader StatusBadRequest]⟩ := by
  simp [performValidation, hm, hc, hb, hd, hr, hk, hp]

theorem pv_marshal (env : Env) (w : ResponseWriter) (r : Request) (body : Bytes)
    (review : AdmissionReview) (request : AdmissionRequest) (err : Error)
    (hm : r.Method = MethodPost)
    (hc : r.Header.Get httpHeaderContentType = contentTypeJSON)
    (hb : r.Body = .ok body) (hd : env.Decode body = .ok review)
    (hr : review.Request = some request)
    (hk : request.Resource = env.khcheckCRDResource)
    (hp : env.Unmarshal request.Object.Raw = none)
    (he : env.Marshal ⟨none, some ⟨request.UID, true⟩⟩ = .error err) :
    performValidation env w r =
      ⟨none,
       some (Errorf ("marshaling response: " ++ err.message)),
       [Op.log "Performing validation.", Op.readAll, Op.decode body,
        Op.unmarshal request.Object.Raw,
        Op.marshal ⟨none, some ⟨request.UID, true⟩⟩]⟩ := by
  simp [performValidation, hm, hc, hb, hd, hr, hk, hp, he]

theorem pv_accept (env : Env) (w : ResponseWriter) (r : Request) (body : Bytes)
    (review : AdmissionReview) (request : AdmissionRequest) (bytes : Bytes)
    (hm : r.Method = MethodPost)
    (hc : r.Header.Get httpHeaderContentType = contentTypeJSON)
    (hb : r.Body = .ok body) (hd : env.Decode body = .ok review)
    (hr : review.Request = some request)
    (hk : request.Resource = env.khcheckCRDResource)
    (hp : env.Unmarshal request.Object.Raw = none)
    (he : env.Marshal ⟨none, some ⟨request.UID, true⟩⟩ = .ok bytes) :
    performValidation env w r =
      ⟨some bytes, none,
       [Op.log "Performing validation.", Op.readAll, Op.decode body,
        Op.unmarshal request.Object.Raw,
        Op.marshal ⟨none, some ⟨request.UID, true⟩⟩,
        Op.log "Completed validation."]⟩ := by
  simp [performValidation, hm, hc, hb, hd, hr, hk, hp, he]

/-- When `performValidation` returns no error, every precondition held and the
result is the encoding of the allowed verdict for the request. -/
theorem pv_success (env : Env) (w : ResponseWriter) (r : Request)
    (h : (performValidation env w r).err = none) :
    r.Method = MethodPost ∧ r.Header.Get httpHeaderContentType = contentTypeJSON ∧
    ∃ body review request bytes,
      r.Body = .ok body ∧ env.Decode body = .ok review ∧
      review.Request = some request ∧
      request.Resource = env.khcheckCRDResource ∧
      env.Unmarshal request.Object.Raw = none ∧
      env.Marshal ⟨none, some ⟨request.UID, true⟩⟩ = .ok bytes ∧
      performValidation env w r =
        ⟨some bytes, none,
         [Op.log "Performing validation.", Op.readAll, Op.decode body,
          Op.unmarshal request.Object.Raw,
          Op.marshal ⟨none, some ⟨request.UID, true⟩⟩,
          Op.log "Completed validation."]⟩ := by
  by_cases hm : r.Method = MethodPost
  swap
  · rw [pv_method env w r hm] at h; simp at h
  by_cases hc : r.Header.Get httpHeaderContentType = contentTypeJSON
  swap
  · rw [pv_contentType env w r hm hc] at h; simp at h
  refine ⟨hm, hc, ?_⟩
  cases hb : r.Body with
  | error err => rw [pv_bodyRead env w r err hm hc hb] at h; simp at h
  | ok body =>
    cases hd : env.Decode body with
    | error err => rw [pv_decode env w r body err hm hc hb hd] at h; simp at h
    | ok review =>
      cases hr : review.Request with
      | none => rw [pv_noRequest env w r body review hm hc hb hd hr] at h; simp at h
      | some request =>
        by_cases hk : request.Resource = env.khcheckCRDResource
        swap
        · rw [pv_resource env w r body review request hm hc hb hd hr hk] at h; simp at h
        cases hp : env.Unmarshal request.Object.Raw with
        | some err =>
          rw [pv_payload env w r body review request err hm hc hb hd hr hk hp] at h
          simp at h
        | none =>
          cases he : env.Marshal ⟨none, some ⟨request.UID, true⟩⟩ with
          | error err =>
            rw [pv_marshal env w r body review request err hm hc hb hd hr hk hp he] at h
            simp at h
          | ok bytes =>
            exact ⟨body, review, request, bytes, rfl, hd, hr, hk, hp, he,
              pv_accept env w r body review request bytes hm hc hb hd hr hk hp he⟩

/-- When `performValidation` returns an error, the calls `validate` makes are
its own log line followed by those of `performValidation`: nothing is written. -/
theorem validate_of_pv_err (env : Env) (w : ResponseWriter) (r : Request) (e : Error)
    (h : (performValidation env w r).err = some e) :
    validate env w r =
      ⟨some (ErrorfW "failed to perform admission validation: " e),
       Op.log "Handling validation webhook request." :: (performValidation env w r).ops⟩ := by
  simp [validate, h]

/-- The calls of `validate` when `performValidation` succeeds and the `Write`
of the returned bytes fails: the `Write` comes first, `WriteHeader` with 500
after it, so the status the response carries is the 200 the `Write` sent; the
returned error wraps the write error. -/
theorem validate_of_write_err (env : Env) (w : ResponseWriter) (r : Request)
    (werr : Error)
    (hpv : (performValidation env w r).err = none)
    (hw : w.Write ((performValidation env w r).bytes.getD []) = some werr) :
    (validate env w r).ops =
        Op.log "Handling validation webhook request." :: (performValidation env w r).ops
          ++ [Op.write ((performValidation env w r).bytes.getD []), Op.writeHeader 500]
      ∧ headerCodes (validate env w r).ops = [500]
      ∧ reportedStatus (validate env w r).ops = 200
      ∧ ∃ e, (validate env w r).err = some e ∧ e.Unwrap = some werr := by
  obtain ⟨_, _, body, review, request, bytes, _, _, _, _, _, _, heq⟩ :=
    pv_success env w r hpv
  rw [heq] at hw
  simp at hw
  simp [validate, heq, hw, headerCodes, reportedStatus, StatusOK,
    StatusInternalServerError, ErrorfW, Error.Unwrap]

/-- The error paths of `validate`, by the status the response carries.  Either
a check failed: `WriteHeader` is the only sink call and its code is the status.
Or the `Write` failed: the one `WriteHeader` call, with 500, follows the `Write`
and the status is 200.  Or the encoder failed: no sink call is made. -/
theorem error_paths (env : Env) (w : ResponseWriter) (r : Request)
    (e : Error) (h : (validate env w r).err = some e) :
    (∃ code, (code = 405 ∨ code = 400 ∨ code = 500)
        ∧ headerCodes (validate env w r).ops = [code]
        ∧ bodyWrites (validate env w r).ops = []
        ∧ reportedStatus (validate env w r).ops = code)
      ∨ (∃ b werr, w.Write b = some werr
        ∧ headerCodes (validate env w r).ops = [500]
        ∧ bodyWrites (validate env w r).ops = [b]
        ∧ reportedStatus (validate env w r).ops = 200)
      ∨ (headerCodes (validate env w r).ops = []
        ∧ bodyWrites (validate env w r).ops = []
        ∧ ∃ v err, Op.marshal v ∈ (validate env w r).ops ∧ env.Marshal v = .error err) := by
  cases hpv : (performValidation env w r).err with
  | none =>
    obtain ⟨_, _, body, review, request, bytes, _, _, _, _, _, _, heq⟩ :=
      pv_success env w r hpv
    right; left
    cases hw : w.Write bytes with
    | none => simp [validate, heq, hw] at h
    | some werr =>
      exact ⟨bytes, werr, hw, by
        simp [validate, heq, hw, headerCodes, bodyWrites, reportedStatus, StatusOK,
          StatusInternalServerError]⟩
  | some e2 =>
    rw [validate_of_pv_err env w r e2 hpv]
    by_cases hm : r.Method = MethodPost
    swap
    · left
      exact ⟨405, by
        simp [pv_method env w r hm, headerCodes, bodyWrites, reportedStatus,
          StatusMethodNotAllowed]⟩
    by_cases hc : r.Header.Get httpHeaderContentType = contentTypeJSON
    swap
    · left
      exact ⟨400, by
        simp [pv_contentType env w r hm hc, headerCodes, bodyWrites, reportedStatus,
          StatusBadRequest]⟩
    cases hb : r.Body with
    | error err =>
      left
      exact ⟨400, by
        simp [pv_bodyRead env w r err hm hc hb, headerCodes, bodyWrites, reportedStatus,
          StatusBadRequest]⟩
    | ok body =>
      cases hd : env.Decode body with
      | error err =>
        left
        exact ⟨500, by
          simp [pv_decode env w r body err hm hc hb hd, headerCodes, bodyWrites,
            reportedStatus, StatusInternalServerError]⟩
      | ok review =>
        cases hr : review.Request with
        | none =>
          left
          exact ⟨400, by
            simp [pv_noRequest env w r body review hm hc hb hd hr, headerCodes, bodyWrites,
              reportedStatus, StatusBadRequest]⟩
        | some request =>
          by_cases hk : request.Resource = env.khcheckCRDResource
          swap
          · left
            exact ⟨400, by
              simp [pv_resource env w r body review request hm hc hb hd hr hk,
                headerCodes, bodyWrites, reportedStatus, StatusBadRequest]⟩
          cases hp : env.Unmarshal request.Object.Raw with
          | some err =>
            left
            exact ⟨400, by
              simp [pv_payload env w r body review request err hm hc hb hd hr hk hp,
                headerCodes, bodyWrites, reportedStatus, StatusBadRequest]⟩
          | none =>
            cases he : env.Marshal ⟨none, some ⟨request.UID, true⟩⟩ with
            | error err =>
              right; right
              simp [pv_marshal env w r body review request err hm hc hb hd hr hk hp he,
                headerCodes, bodyWrites, he]
            | ok bytes =>
              rw [pv_accept env w r body review request bytes hm hc hb hd hr hk hp he]
                at hpv
              simp at hpv

/-! ## The claims -/

/-- C1. A POST request with content type application/json, a readable body that
decodes into an AdmissionReview with a non-nil Request whose Resource equals
khcheckCRDResource and whose Object.Raw decodes as a KuberhealthyCheck, the
response envelope having a JSON encoding: performValidation calls WriteHeader
not at all (the default 200 stays), returns a nil error, and returns the
encoding of an AdmissionReview whose Response.UID is the Request.UID and whose
Response.Allowed is true; validate then hands exactly those bytes to Write, once,
and when the write succeeds it returns nil with no status set. -/
theorem validate_admits (env : Env) (w : ResponseWriter) (r : Request) (body : Bytes)
    (review : AdmissionReview) (request : AdmissionRequest) (bytes : Bytes)
    (hm : r.Method = MethodPost)
    (hc : r.Header.Get httpHeaderContentType = contentTypeJSON)
    (hb : r.Body = .ok body) (hd : env.Decode body = .ok review)
    (hr : review.Request = some request)
    (hk : request.Resource = env.khcheckCRDResource)
    (hp : env.Unmarshal request.Object.Raw = none)
    (he : env.Marshal ⟨none, some ⟨request.UID, true⟩⟩ = .ok bytes) :
    headerCodes (performValidation env w r).ops = []
      ∧ (performValidation env w r).err = none
      ∧ (performValidation env w r).bytes = some bytes
      ∧ (∃ resp : AdmissionResponse, resp.UID = request.UID ∧ resp.Allowed = true
          ∧ env.Marshal ⟨none, some resp⟩ = .ok bytes)
      ∧ bodyWrites (validate env w r).ops = [bytes]
      ∧ responseBody (validate env w r).ops = bytes
      ∧ (w.Write bytes = none →
          (validate env w r).err = none ∧ headerCodes (validate env w r).ops = []) := by
  have hpv := pv_accept env w r body review request bytes hm hc hb hd hr hk hp he
  refine ⟨?_, ?_, ?_, ⟨⟨request.UID, true⟩, rfl, rfl, he⟩, ?_, ?_, ?_⟩
  · simp [hpv, headerCodes]
  · simp [hpv]
  · simp [hpv]
  · cases hw : w.Write bytes <;> simp [validate, hpv, hw, bodyWrites]
  · cases hw : w.Write bytes <;> simp [validate, hpv, hw, bodyWrites, responseBody]
  · intro hw
    simp [validate, hpv, hw, headerCodes]

/-- C1, on the sample configuration: the review with UID abc-123 of a khcheck
is admitted with no status set and the encoded verdict written. -/
theorem validate_admits_witness :
    headerCodes (performValidation sampleEnv okWriter (postJSON [1])).ops = []
      ∧ (performValidation sampleEnv okWriter (postJSON [1])).err = none
      ∧ (performValidation sampleEnv okWriter (postJSON [1])).bytes = some [1, 7]
      ∧ bodyWrites (validate sampleEnv okWriter (postJSON [1])).ops = [[1, 7]]
      ∧ (validate sampleEnv okWriter (postJSON [1])).err = none :=
  have h := validate_admits sampleEnv okWriter (postJSON [1]) [1]
    ⟨some ⟨"abc-123", khchecks, ⟨[1]⟩⟩, none⟩ ⟨"abc-123", khchecks, ⟨[1]⟩⟩ [1, 7]
    (by decide) (by decide) rfl rfl rfl (by decide) (by decide) rfl
  ⟨h.1, h.2.1, h.2.2.1, h.2.2.2.2.1, (h.2.2.2.2.2.2 rfl).1⟩

/-- C2. A response body is written only when every precondition held: if
validate calls Write at all, the method was POST, the content type was
application/json, the body was read and decoded into an AdmissionReview with a
non-nil Request, the Resource equalled khcheckCRDResource, the raw payload
decoded, and what was written is the encoding of the allowed verdict for that
request; whenever performValidation returns an error nothing is written; so the
body is either empty or the encoding of an envelope with allowed equal to true. -/
theorem body_only_when_preconditions_hold (env : Env) (w : ResponseWriter) (r : Request) :
    (bodyWrites (validate env w r).ops ≠ [] →
        r.Method = MethodPost ∧ r.Header.Get httpHeaderContentType = contentTypeJSON ∧
        ∃ body review request bytes,
          r.Body = .ok body ∧ env.Decode body = .ok review ∧
          review.Request = some request ∧
          request.Resource = env.khcheckCRDResource ∧
          env.Unmarshal request.Object.Raw = none ∧
          env.Marshal ⟨none, some ⟨request.UID, true⟩⟩ = .ok bytes ∧
          bodyWrites (validate env w r).ops = [bytes])
      ∧ ((performValidation env w r).err ≠ none →
          bodyWrites (validate env w r).ops = [] ∧ responseBody (validate env w r).ops = [])
      ∧ (responseBody (validate env w r).ops = [] ∨
          ∃ resp bytes, resp.Allowed = true ∧ env.Marshal ⟨none, some resp⟩ = .ok bytes ∧
            responseBody (validate env w r).ops = bytes) := by
  cases hpv : (performValidation env w r).err with
  | some e =>
    have hv := validate_of_pv_err env w r e hpv
    have hnw : bodyWrites (validate env w r).ops = [] := by
      rw [hv]
      by_cases hm : r.Method = MethodPost
      swap
      · simp [pv_method env w r hm, bodyWrites]
      by_cases hc : r.Header.Get httpHeaderContentType = contentTypeJSON
      swap
      · simp [pv_contentType env w r hm hc, bodyWrites]
      cases hb : r.Body with
      | error err => simp [pv_bodyRead env w r err hm hc hb, bodyWrites]
      | ok body =>
        cases hd : env.Decode body with
        | error err => simp [pv_decode env w r body err hm hc hb hd, bodyWrites]
        | ok review =>
          cases hr : review.Request with
          | none => simp [pv_noRequest env w r body review hm hc hb hd hr, bodyWrites]
          | some request =>
            by_cases hk : request.Resource = env.khcheckCRDResource
            swap
            · simp [pv_resource env w r body review request hm hc hb hd hr hk, bodyWrites]
            cases hp : env.Unmarshal request.Object.Raw with
            | some err =>
              simp [pv_payload env w r body review request err hm hc hb hd hr hk hp,
                bodyWrites]
            | none =>
              cases he : env.Marshal ⟨none, some ⟨request.UID, true⟩⟩ with
              | error err =>
                simp [pv_marshal env w r body review request err hm hc hb hd hr hk hp he,
                  bodyWrites]
              | ok bytes =>
                rw [pv_accept env w r body review request bytes hm hc hb hd hr hk hp he]
                  at hpv
                simp at hpv
    have hbody : responseBody (validate env w r).ops = [] := by
      simp [responseBody, hnw]
    exact ⟨fun h => absurd hnw h, fun _ => ⟨hnw, hbody⟩, Or.inl hbody⟩
  | none =>
    obtain ⟨hm, hc, body, review, request, bytes, hb, hd, hr, hk, hp, he, heq⟩ :=
      pv_success env w r hpv
    have hw : bodyWrites (validate env w r).ops = [bytes] := by
      cases hwr : w.Write bytes <;> simp [validate, heq, hwr, bodyWrites]
    refine ⟨fun _ => ⟨hm, hc, body, review, request, bytes, hb, hd, hr, hk, hp, he, hw⟩,
      fun h => absurd rfl h, Or.inr ⟨⟨request.UID, true⟩, bytes, rfl, he, ?_⟩⟩
    simp [responseBody, hw]

/-- C3. For every request whose method is not POST, whatever its content type
and body: the only status set is 405, validate returns a non-nil error, Write is
never called and the body stays empty. -/
theorem validate_method_not_post (env : Env) (w : ResponseWriter) (r : Request)
    (hm : r.Method ≠ MethodPost) :
    (validate env w r).ops =
        [Op.log "Handling validation webhook request.", Op.log "Performing validation.",
         Op.writeHeader 405]
      ∧ headerCodes (validate env w r).ops = [405]
      ∧ (∃ e, (validate env w r).err = some e)
      ∧ bodyWrites (validate env w r).ops = []
      ∧ responseBody (validate env w r).ops = [] := by
  simp [validate, pv_method env w r hm, headerCodes, bodyWrites, responseBody,
    StatusMethodNotAllowed]

/-- C3, on a GET request with a plain-text content type. -/
theorem validate_method_not_post_witness :
    headerCodes (validate sampleEnv okWriter getRequest).ops = [405]
      ∧ (∃ e, (validate sampleEnv okWriter getRequest).err = some e)
      ∧ responseBody (validate sampleEnv okWriter getRequest).ops = [] :=
  have h := validate_method_not_post sampleEnv okWriter getRequest (by decide)
  ⟨h.2.1, h.2.2.1, h.2.2.2.2⟩

/-- C4. For every POST request whose Content-Type header value is not exactly
application/json: the only status set is 400, performValidation returns nil
bytes and a non-nil error, and the body is neither read nor decoded (no
collaborator other than the logger and the sink is called). -/
theorem pv_content_type_rejected (env : Env) (w : ResponseWriter) (r : Request)
    (hm : r.Method = MethodPost)
    (hc : r.Header.Get httpHeaderContentType ≠ "application/json") :
    (performValidation env w r).ops =
        [Op.log "Performing validation.", Op.writeHeader 400]
      ∧ headerCodes (performValidation env w r).ops = [400]
      ∧ (performValidation env w r).bytes = none
      ∧ (∃ e, (performValidation env w r).err = some e)
      ∧ Op.readAll ∉ (performValidation env w r).ops
      ∧ (∀ b, Op.decode b ∉ (performValidation env w r).ops)
      ∧ codecCalls (performValidation env w r).ops = [] := by
  have hc2 : r.Header.Get httpHeaderContentType ≠ contentTypeJSON := hc
  simp [pv_contentType env w r hm hc2, headerCodes, codecCalls, StatusBadRequest]

/-- C4, on a POST request without the header and on one whose content type
carries a charset parameter. -/
theorem pv_content_type_rejected_witness :
    headerCodes (performValidation sampleEnv okWriter postNoContentType).ops = [400]
      ∧ headerCodes (performValidation sampleEnv okWriter postCharset).ops = [400]
      ∧ (performValidation sampleEnv okWriter postCharset).bytes = none :=
  ⟨(pv_content_type_rejected sampleEnv okWriter postNoContentType rfl (by decide)).2.1,
   (pv_content_type_rejected sampleEnv okWriter postCharset rfl (by decide)).2.1,
   (pv_content_type_rejected sampleEnv okWriter postCharset rfl (by decide)).2.2.1⟩

/-- C5. For every POST request with content type application/json and a
readable body: if the body does not decode into an AdmissionReview the only
status set is 500, and if it decodes but the Request of the envelope is nil
the only status set is 400; in both cases performValidation returns nil bytes
and a non-nil error. -/
theorem pv_envelope_rejected (env : Env) (w : ResponseWriter) (r : Request) (body : Bytes)
    (hm : r.Method = MethodPost)
    (hc : r.Header.Get httpHeaderContentType = "application/json")
    (hb : r.Body = .ok body) :
    (∀ err, env.Decode body = .error err →
        headerCodes (performValidation env w r).ops = [500]
          ∧ (performValidation env w r).bytes = none
          ∧ ∃ e, (performValidation env w r).err = some e)
      ∧ (∀ review, env.Decode body = .ok review → review.Request = none →
        headerCodes (performValidation env w r).ops = [400]
          ∧ (performValidation env w r).bytes = none
          ∧ ∃ e, (performValidation env w r).err = some e) := by
  have hc2 : r.Header.Get httpHeaderContentType = contentTypeJSON := hc
  constructor
  · intro err hd
    simp [pv_decode env w r body err hm hc2 hb hd, headerCodes, StatusInternalServerError]
  · intro review hd hr
    simp [pv_noRequest env w r body review hm hc2 hb hd hr, headerCodes, StatusBadRequest]

/-- C5, on a body that does not decode and on an envelope without request. -/
theorem pv_envelope_rejected_witness :
    headerCodes (performValidation sampleEnv okWriter (postJSON [9])).ops = [500]
      ∧ headerCodes (performValidation sampleEnv okWriter (postJSON [4])).ops = [400] :=
  ⟨((pv_envelope_rejected sampleEnv okWriter (postJSON [9]) [9] rfl (by decide) rfl).1
      (Errorf "couldn't get version/kind; json parse error") rfl).1,
   ((pv_envelope_rejected sampleEnv okWriter (postJSON [4]) [4] rfl (by decide) rfl).2
      ⟨none, none⟩ rfl rfl).1⟩

/-- C6. For every request that passes the method, content-type, body-read and
envelope checks and whose Request.Resource differs from khcheckCRDResource in
its group, its version or its resource: the only status set is 400 and
performValidation returns nil bytes and a non-nil error, whatever the payload
decoder would say of the embedded payload, which it is never asked. -/
theorem pv_resource_rejected (env : Env) (w : ResponseWriter) (r : Request) (body : Bytes)
    (review : AdmissionReview) (request : AdmissionRequest)
    (hm : r.Method = MethodPost)
    (hc : r.Header.Get httpHeaderContentType = "application/json")
    (hb : r.Body = .ok body) (hd : env.Decode body = .ok review)
    (hr : review.Request = some request)
    (hk : request.Resource.Group ≠ env.khcheckCRDResource.Group
      ∨ request.Resource.Version ≠ env.khcheckCRDResource.Version
      ∨ request.Resource.Resource ≠ env.khcheckCRDResource.Resource) :
    headerCodes (performValidation env w r).ops = [400]
      ∧ (performValidation env w r).bytes = none
      ∧ (∃ e, (performValidation env w r).err = some e)
      ∧ (∀ raw, Op.unmarshal raw ∉ (performValidation env w r).ops) := by
  have hc2 : r.Header.Get httpHeaderContentType = contentTypeJSON := hc
  have hk2 : request.Resource ≠ env.khcheckCRDResource := by
    intro heq
    rw [heq] at hk
    simp at hk
  simp [pv_resource env w r body review request hm hc2 hb hd hr hk2, headerCodes,
    StatusBadRequest]

/-- C6, on the review of a deployment whose payload would not decode either. -/
theorem pv_resource_rejected_witness :
    headerCodes (performValidation sampleEnv okWriter (postJSON [2])).ops = [400]
      ∧ (performValidation sampleEnv okWriter (postJSON [2])).bytes = none :=
  have h := pv_resource_rejected sampleEnv okWriter (postJSON [2]) [2]
    ⟨some ⟨"abc-123", ⟨"apps", "v1", "deployments"⟩, ⟨[0]⟩⟩, none⟩
    ⟨"abc-123", ⟨"apps", "v1", "deployments"⟩, ⟨[0]⟩⟩
    rfl (by decide) rfl rfl rfl (Or.inl (by decide))
  ⟨h.1, h.2.1⟩

/-- C7. For every request that passes the method, content-type, body-read,
envelope and resource-kind checks and whose Request.Object.Raw fails to decode
as a KuberhealthyCheck: the only status set is 400, performValidation returns
nil bytes and a non-nil error, validate returns a non-nil error, the encoder is
never called (no envelope, allowed or not, is serialized) and Write is never
called, so the body stays empty. -/
theorem pv_payload_rejected (env : Env) (w : ResponseWriter) (r : Request) (body : Bytes)
    (review : AdmissionReview) (request : AdmissionRequest) (err : Error)
    (hm : r.Method = MethodPost)
    (hc : r.Header.Get httpHeaderContentType = "application/json")
    (hb : r.Body = .ok body) (hd : env.Decode body = .ok review)
    (hr : review.Request = some request)
    (hk : request.Resource = env.khcheckCRDResource)
    (hp : env.Unmarshal request.Object.Raw = some err) :
    headerCodes (performValidation env w r).ops = [400]
      ∧ (performValidation env w r).bytes = none
      ∧ (∃ e, (performValidation env w r).err = some e)
      ∧ headerCodes (validate env w r).ops = [400]
      ∧ (∃ e, (validate env w r).err = some e)
      ∧ (∀ v, Op.marshal v ∉ (validate env w r).ops)
      ∧ (∀ op ∈ (validate env w r).ops, isAllowedMarshal op = false ∧ isWrite op = false)
      ∧ bodyWrites (validate env w r).ops = []
      ∧ responseBody (validate env w r).ops = [] := by
  have hc2 : r.Header.Get httpHeaderContentType = contentTypeJSON := hc
  simp [validate, pv_payload env w r body review request err hm hc2 hb hd hr hk hp,
    headerCodes, bodyWrites, responseBody, isAllowedMarshal, isWrite, StatusBadRequest]

/-- C7, on the review of a khcheck whose payload does not decode. -/
theorem pv_payload_rejected_witness :
    headerCodes (validate sampleEnv okWriter (postJSON [3])).ops = [400]
      ∧ responseBody (validate sampleEnv okWriter (postJSON [3])).ops = [] :=
  have h := pv_payload_rejected sampleEnv okWriter (postJSON [3]) [3]
    ⟨some ⟨"abc-123", khchecks, ⟨[0]⟩⟩, none⟩ ⟨"abc-123", khchecks, ⟨[0]⟩⟩
    (Errorf "json: cannot unmarshal") rfl (by decide) rfl rfl rfl (by decide) (by decide)
  ⟨h.2.2.2.1, h.2.2.2.2.2.2.2.2⟩

/-- C8, at the failing input: an admitted review sent to a sink whose Write
fails.  performValidation succeeds, validate calls Write with the verdict and
only then WriteHeader with 500; the Write has already sent the headers with
200, so the status the response carries is 200 and not 500.  The error validate
returns is non-nil and wraps the write error. -/
theorem write_failure_status_stays_200 :
    (performValidation sampleEnv brokenWriter (postJSON [1])).err = none
      ∧ (validate sampleEnv brokenWriter (postJSON [1])).ops =
          [Op.log "Handling validation webhook request.", Op.log "Performing validation.",
           Op.readAll, Op.decode [1], Op.unmarshal [1],
           Op.marshal ⟨none, some ⟨"abc-123", true⟩⟩, Op.log "Completed validation.",
           Op.write [1, 7], Op.writeHeader 500]
      ∧ reportedStatus (validate sampleEnv brokenWriter (postJSON [1])).ops = 200
      ∧ reportedStatus (validate sampleEnv brokenWriter (postJSON [1])).ops ≠ 500
      ∧ ∃ e, (validate sampleEnv brokenWriter (postJSON [1])).err = some e
          ∧ e.Unwrap = some (Errorf "write: broken pipe") := by
  have h := validate_of_write_err sampleEnv brokenWriter (postJSON [1])
    (Errorf "write: broken pipe") rfl rfl
  refine ⟨rfl, by decide, ?_, ?_, h.2.2.2⟩
  · exact h.2.2.1
  · rw [h.2.2.1]; decide

/-- C9, at the failing input: the error kind ResponseWriteError.  On a review
of a khcheck with UID xyz-9 sent to a sink whose Write fails, validate ends in
an error, its one WriteHeader call (with 500) is the last call and comes after
the Write, and the response carries the status 200, which is no error status:
this error kind is mapped to no error status of its own. -/
theorem write_error_kind_has_no_error_status :
    (∃ e, (validate sampleEnv brokenWriter (postJSON [5])).err = some e)
      ∧ headerCodes (validate sampleEnv brokenWriter (postJSON [5])).ops = [500]
      ∧ bodyWrites (validate sampleEnv brokenWriter (postJSON [5])).ops = [[1, 5]]
      ∧ (validate sampleEnv brokenWriter (postJSON [5])).ops.getLast? =
          some (Op.writeHeader 500)
      ∧ reportedStatus (validate sampleEnv brokenWriter (postJSON [5])).ops = StatusOK
      ∧ reportedStatus (validate sampleEnv brokenWriter (postJSON [5])).ops < 400 := by
  have h := validate_of_write_err sampleEnv brokenWriter (postJSON [5])
    (Errorf "write: broken pipe") rfl rfl
  obtain ⟨e, he, _⟩ := h.2.2.2
  refine ⟨⟨e, he⟩, h.2.1, by decide, by decide, h.2.2.1, ?_⟩
  rw [h.2.2.1]; decide

/-- C10. The preconditions are checked in the fixed order method, content type,
body read, envelope decode, request present, resource kind, payload decode, and
the first failure short-circuits: for every request, if c is the earliest check
in that order the request violates (whatever later checks it violates as well),
performValidation calls WriteHeader exactly once, with the status of c, as its
last call, returns nil bytes and a non-nil error, calls no collaborator that
belongs to a check later than c, and never calls the encoder. -/
theorem first_failure_short_circuits (env : Env) (w : ResponseWriter) (r : Request)
    (c : Check) (h : earliestViolation env r = some c) :
    headerCodes (performValidation env w r).ops = [c.status]
      ∧ (performValidation env w r).ops.getLast? = some (Op.writeHeader c.status)
      ∧ (performValidation env w r).bytes = none
      ∧ (∃ e, (performValidation env w r).err = some e)
      ∧ (∀ op ∈ (performValidation env w r).ops, ∀ d, op.check = some d → d.rank ≤ c.rank)
      ∧ (∀ v, Op.marshal v ∉ (performValidation env w r).ops) := by
  unfold earliestViolation checkOrder at h
  by_cases hm : r.Method = MethodPost
  swap
  · simp [List.find?, violates, hm] at h
    subst h
    simp [pv_method env w r hm, headerCodes, Check.status, Op.check,
      StatusMethodNotAllowed]
  by_cases hc : r.Header.Get httpHeaderContentType = contentTypeJSON
  swap
  · simp [List.find?, violates, hm, hc] at h
    subst h
    simp [pv_contentType env w r hm hc, headerCodes, Check.status, Op.check,
      StatusBadRequest]
  cases hb : r.Body with
  | error err =>
    simp [List.find?, violates, hm, hc, hb] at h
    subst h
    simp [pv_bodyRead env w r err hm hc hb, headerCodes, Check.status, Op.check,
      Check.rank, StatusBadRequest]
  | ok body =>
    cases hd : env.Decode body with
    | error err =>
      simp [List.find?, violates, hm, hc, hb, hd] at h
      subst h
      simp [pv_decode env w r body err hm hc hb hd, headerCodes, Check.status, Op.check,
        Check.rank, StatusInternalServerError]
    | ok review =>
      cases hr : review.Request with
      | none =>
        simp [List.find?, violates, envelopeOf, hm, hc, hb, hd, hr] at h
        subst h
        simp [pv_noRequest env w r body review hm hc hb hd hr, headerCodes, Check.status,
          Op.check, Check.rank, StatusBadRequest]
      | some request =>
        by_cases hk : request.Resource = env.khcheckCRDResource
        swap
        · simp [List.find?, violates, envelopeOf, hm, hc, hb, hd, hr, hk] at h
          subst h
          simp [pv_resource env w r body review request hm hc hb hd hr hk, headerCodes,
            Check.status, Op.check, Check.rank, StatusBadRequest]
        cases hp : env.Unmarshal request.Object.Raw with
        | some err =>
          simp [List.find?, violates, envelopeOf, hm, hc, hb, hd, hr, hk, hp] at h
          subst h
          simp [pv_payload env w r body review request err hm hc hb hd hr hk hp,
            headerCodes, Check.status, Op.check, Check.rank, StatusBadRequest]
        | none =>
          simp [List.find?, violates, envelopeOf, hm, hc, hb, hd, hr, hk, hp] at h

/-- C10, on a GET request with a plain-text content type, which violates the
method and the content-type checks and gets 405, and on the review of a
deployment with an undecodable payload, which violates the resource-kind and
the payload checks and gets the 400 of the resource mismatch, the payload
decoder never being called. -/
theorem first_failure_short_circuits_witness :
    (violates sampleEnv getRequest Check.method = true
        ∧ violates sampleEnv getRequest Check.contentType = true
        ∧ headerCodes (performValidation sampleEnv okWriter getRequest).ops = [405])
      ∧ (violates sampleEnv (postJSON [2]) Check.resourceKind = true
        ∧ violates sampleEnv (postJSON [2]) Check.payloadDecode = true
        ∧ headerCodes (performValidation sampleEnv okWriter (postJSON [2])).ops = [400]
        ∧ ∀ op ∈ (performValidation sampleEnv okWriter (postJSON [2])).ops,
            ∀ d, op.check = some d → d.rank ≤ Check.resourceKind.rank) :=
  have h1 := first_failure_short_circuits sampleEnv okWriter getRequest Check.method
    (by decide)
  have h2 := first_failure_short_circuits sampleEnv okWriter (postJSON [2])
    Check.resourceKind (by decide)
  ⟨⟨by decide, by decide, h1.1⟩, ⟨by decide, by decide, h2.1, h2.2.2.2.2.1⟩⟩

end AdmissionWebhook
